import Mathlib

/-!
Shallow embedding of the contagent repository (github.com/ryanmoran/contagent)
for checking its natural-language specification.

Each definition mirrors one Go function or data structure of the source tree;
the doc comment of a definition names the file and symbol it embeds.  Effectful
Go code is modelled by explicit state passing: a function that performs external
calls takes the outcomes of those calls as arguments and returns the requests it
issued together with its result.
-/

namespace Contagent

/-! ## Cleanup ledger (src/unnamed/part_000, `CleanupManager`)

A registered release action is abstracted by its name and by the error it
returns when invoked (`none` = success); the side effects of the action itself
are irrelevant to the ledger's contract. -/

/-- One entry of the cleanup ledger: `cleanupFunc` from part_000, a `(name, fn)`
pair where `fn`'s behaviour is abstracted by the error it returns. -/
structure CleanupEntry where
  name : String
  result : Option String
deriving DecidableEq

/-- `CleanupManager` from part_000: a list of registered cleanup entries. -/
structure CleanupManager where
  funcs : List CleanupEntry
deriving DecidableEq

/-- `NewCleanupManager` from part_000 line 20. -/
def NewCleanupManager : CleanupManager := ⟨[]⟩

/-- `CleanupManager.Add` (part_000 lines 26-30): prepends the new entry, so
`funcs` holds the entries in reverse insertion order. -/
def CleanupManager.Add (m : CleanupManager) (e : CleanupEntry) : CleanupManager :=
  ⟨e :: m.funcs⟩

/-- Pushing a whole list of entries one by one via `Add`, in list order. -/
def CleanupManager.AddAll (m : CleanupManager) (es : List CleanupEntry) : CleanupManager :=
  es.foldl CleanupManager.Add m

/-- The observable outcome of `CleanupManager.Execute`: which entries were
invoked (in call order), which log lines were produced, and the manager state
after the call. -/
structure ExecuteResult where
  invoked : List String
  logs : List String
  state : CleanupManager
deriving DecidableEq

/-- `CleanupManager.Execute` (part_000 lines 34-43): iterates `m.funcs` in
order, invoking every entry and logging a failure line for each entry whose
action returns an error.  The loop neither stops on an error nor mutates
`m.funcs` (the Go method contains no assignment to the slice). -/
def CleanupManager.Execute (m : CleanupManager) : ExecuteResult :=
  { invoked := m.funcs.map (fun e => e.name)
    logs := m.funcs.filterMap (fun e =>
      e.result.map (fun err => "cleanup failed for " ++ e.name ++ ": " ++ err))
    state := m }

theorem addAll_funcs (l : List CleanupEntry) (es : List CleanupEntry) :
    (CleanupManager.AddAll ⟨l⟩ es).funcs = es.reverse ++ l := by
  induction es generalizing l with
  | nil => rfl
  | cons e es ih =>
      simp only [CleanupManager.AddAll, List.foldl_cons] at *
      rw [show CleanupManager.Add ⟨l⟩ e = ⟨e :: l⟩ from rfl]
      rw [ih (e :: l)]
      simp

/-- C1: for every cleanup ledger and every sequence of entries pushed via
`Add`, a call to `Execute` invokes every entry's release action exactly once,
in reverse insertion order, and this holds for every assignment of results to
the entries — in particular an error returned by any entry does not prevent
the remaining entries from being invoked. -/
theorem cleanup_execute_reverse_order (entries : List CleanupEntry) :
    ((NewCleanupManager.AddAll entries).Execute).invoked
      = (entries.map (fun e => e.name)).reverse := by
  show ((CleanupManager.AddAll ⟨[]⟩ entries).Execute).invoked = _
  simp only [CleanupManager.Execute, addAll_funcs, List.append_nil]
  rw [List.map_reverse]

/-- C2 counterexample: for the ledger holding the single entry `a`, the first
`Execute` invokes `a`, and a second call to `Execute` invokes `a` again — the
repeated call is not a no-op. -/
theorem cleanup_execute_repeat_invokes_again :
    ((NewCleanupManager.Add ⟨"a", none⟩).Execute).invoked = ["a"] ∧
    (((NewCleanupManager.Add ⟨"a", none⟩).Execute).state.Execute).invoked = ["a"] := by
  constructor <;> rfl

/-- C2 amended: `Execute` leaves the ledger's entry list untouched, so a
repeated call to `Execute` invokes every release action again, in the same
order as the first call (the Go method contains no code clearing `m.funcs`). -/
theorem cleanup_execute_not_oneshot (m : CleanupManager) :
    (m.Execute).state = m ∧
    (((m.Execute).state.Execute)).invoked = (m.Execute).invoked := by
  exact ⟨rfl, rfl⟩

/-! ## Container handle and `Wait` (src/unnamed/part_001, `Container`)

`Container.Wait` blocks on a three-way `select`; the branch that fires is
modelled by a `WaitEvent`, and the outcome of the graceful-stop request issued
on the signal branch is a further input. -/

/-- `Container` from part_001 lines 177-185 (the Docker client field is
implicit in the request lists the methods return; `RetryDelay` is kept in
milliseconds). -/
structure Container where
  id : String
  name : String
  stopTimeout : Nat
  ttyRetries : Nat
  retryDelayMs : Nat
deriving DecidableEq

/-- Which branch of the `select` in `Container.Wait` (part_001 lines 303-317)
fires: the wait-error channel (whose error may be nil), the wait-result
channel, or an interrupt signal (SIGINT/SIGTERM). -/
inductive WaitEvent where
  | waitError (err : Option String)
  | waitResult (statusCode : Int)
  | signal
deriving DecidableEq

/-- The observable outcome of `Container.Wait`: the error it returns, the
timeouts of the `ContainerStop` requests it issued, and the messages printed
and warned through the sink. -/
structure WaitOutcome where
  result : Option String
  stops : List Nat
  printed : List String
  warnings : List String
deriving DecidableEq

/-- `Container.Wait` (part_001 lines 295-319).  On the error branch it returns
a wrapped error only when the channel's error is non-nil; on the result branch
it prints the exit status; on the signal branch it prints a notice, issues one
`ContainerStop` request with the configured timeout, downgrades a stop failure
to a warning, and returns nil. -/
def Container.Wait (c : Container) (ev : WaitEvent) (stopErr : Option String) : WaitOutcome :=
  match ev with
  | .waitError err =>
      match err with
      | some e =>
          { result := some ("failed to wait for container " ++ c.name ++ ": " ++ e)
            stops := [], printed := [], warnings := [] }
      | none => { result := none, stops := [], printed := [], warnings := [] }
  | .waitResult status =>
      { result := none, stops := []
        printed := ["Container exited with status: " ++ toString status]
        warnings := [] }
  | .signal =>
      { result := none
        stops := [c.stopTimeout]
        printed := ["Received signal, stopping container..."]
        warnings := match stopErr with
          | some e => ["failed to stop container: " ++ e]
          | none => [] }

/-- C4: if an interrupt signal arrives while `Wait` is blocked, `Wait` issues
exactly one graceful-stop request carrying the handle's configured stop
timeout and returns nil, for every outcome of that stop request — a stop
failure is only warned, never returned. -/
theorem wait_interrupt_graceful_stop (c : Container) (stopErr : Option String) :
    (c.Wait .signal stopErr).stops = [c.stopTimeout] ∧
    (c.Wait .signal stopErr).result = none := by
  exact ⟨rfl, rfl⟩

/-! ## Loopback git server (src/unnamed/part_006, `NewServer`)

`NewServer` is modelled over the outcomes of its three external calls.  The
repository path is the orchestrator's `os.Getwd` result, already absolute, so
the leading `filepath.Abs` call only cleans it and cannot fail;
`net.SplitHostPort` and `strconv.ParseInt` on the address of a successfully
bound TCP listener cannot fail either, so the listener is modelled as directly
carrying its port. -/

/-- The outcomes of the external calls `NewServer` makes, in program order:
whether `os.Stat(path/.git)` finds the directory, the port of the bound
listener if `net.Listen` succeeds, and the path of the git binary if
`exec.LookPath("git")` succeeds. -/
structure ServerWorld where
  gitDirExists : Bool
  listenPort : Option Nat
  gitPath : Option String
deriving DecidableEq

/-- The result of `NewServer`, named after the spec's error taxonomy. -/
inductive ServerOutcome where
  | ok (port : Nat)
  | notARepository
  | listenFailed
  | toolMissing
deriving DecidableEq

/-- Whether `NewServer` returned an error. -/
def ServerOutcome.isError : ServerOutcome → Bool
  | .ok _ => false
  | _ => true

/-- `NewServer` (part_006 lines 29-103): checks `path/.git`, binds the
listener, looks up the git binary, then starts serving.  The second component
is the list of TCP listeners the call leaves open when it returns: the error
return at the failed `exec.LookPath` (line 47) does not close the listener
bound at line 40. -/
def NewServer (w : ServerWorld) : ServerOutcome × List Nat :=
  if ¬w.gitDirExists then (.notARepository, [])
  else
    match w.listenPort with
    | none => (.listenFailed, [])
    | some port =>
        match w.gitPath with
        | none => (.toolMissing, [port])
        | some _ => (.ok port, [port])

/-- C5 counterexample: in the world where `path/.git` exists, the listener
binds on port 8080 and the git binary is missing, `NewServer` returns the
tool-missing error with the bound listener still open — a failed start is not
atomic. -/
theorem newServer_toolMissing_leaks_listener :
    (NewServer ⟨true, some 8080, none⟩).1 = .toolMissing ∧
    (NewServer ⟨true, some 8080, none⟩).2 = [8080] := by
  exact ⟨rfl, rfl⟩

/-- C5 amended: `NewServer` fails exactly when `path/.git` is absent, the
loopback listener cannot be bound, or the git binary cannot be located in
PATH; the failures before the bind leave no listener open, but whenever the
bind succeeded — including the tool-missing error, which occurs after it —
the bound listener remains open when the call returns. -/
theorem newServer_error_cases (w : ServerWorld) :
    ((NewServer w).1.isError = true ↔
        (w.gitDirExists = false ∨ w.listenPort = none ∨ w.gitPath = none)) ∧
    (NewServer w).2 = (if w.gitDirExists then w.listenPort.toList else []) := by
  obtain ⟨g, p, b⟩ := w
  cases g <;> cases p <;> cases b <;>
    simp [NewServer, ServerOutcome.isError, Option.toList]

/-! ## Configuration (src/internal/config.go)

Strings are manipulated through their character lists so that every operation
is structurally recursive and evaluates inside the kernel. -/

/-- `strings.Cut(s, "=")` on a character list: splits at the first `=`,
returning `none` when no `=` occurs (Go's `found = false`). -/
def cutCharList : List Char → Option (List Char × List Char)
  | [] => none
  | c :: cs =>
      if c = '=' then some ([], cs)
      else
        match cutCharList cs with
        | some (pre, post) => some (c :: pre, post)
        | none => none

/-- `strings.Cut(variable, "=")` from config.go line 65, on strings. -/
def envCut (s : String) : Option (String × String) :=
  (cutCharList s.data).map (fun p => (String.mk p.1, String.mk p.2))

/-- The `lookup` map of config.go lines 63-69: later bindings overwrite
earlier ones, and a variable without `=` is not inserted. -/
def lookupEnv (environment : List String) (key : String) : Option String :=
  environment.foldl
    (fun acc v =>
      match envCut v with
      | some (k, value) => if k = key then some value else acc
      | none => acc)
    none

/-- The mutable state of the four registered flags of the `contagent` flag set
(config.go lines 78-82) together with their values after parsing. -/
structure FlagValues where
  envFlags : List String
  volumeFlags : List String
  dockerfilePath : String
  network : String
deriving DecidableEq

/-- Values of the flag variables before `fs.Parse` runs: empty repeatables,
empty Dockerfile path, network default `default`. -/
def initialFlagValues : FlagValues := ⟨[], [], "", "default"⟩

/-- Whether `name` is one of the four registered flags. -/
def isKnownFlag (name : String) : Bool :=
  name == "env" || name == "volume" || name == "dockerfile" || name == "network"

/-- `flag.Value.Set` for the registered flags: `stringSlice.Set` appends
(config.go lines 53-56), `StringVar` assigns. -/
def applyFlag (st : FlagValues) (name value : String) : FlagValues :=
  if name = "env" then { st with envFlags := st.envFlags ++ [value] }
  else if name = "volume" then { st with volumeFlags := st.volumeFlags ++ [value] }
  else if name = "dockerfile" then { st with dockerfilePath := value }
  else { st with network := value }

/-- Go's `flag.FlagSet.Parse` loop (`parseOne` of the standard library) for a
flag set with no boolean flags, returning the flag values and the remaining
arguments `fs.Args()`.  A token that is not a flag (shorter than two
characters or not starting with `-`) stops parsing and is kept; a lone `--`
is consumed and stops parsing; a bad-syntax token (`--`-prefixed name that is
empty or starts with `-` or `=`) raises an error before being consumed; an
unknown flag (including `-help`) raises an error after being consumed; a known
flag takes its value from `name=value` or from the next argument, and a
missing value raises an error with everything consumed.  `ParseConfig`
ignores the error, so only the state and the remaining arguments matter. -/
def goFlagParse : List String → FlagValues → FlagValues × List String
  | [], st => (st, [])
  | s :: rest, st =>
      match s.data with
      | '-' :: c2 :: cs =>
          if c2 = '-' ∧ cs = [] then (st, rest)
          else
            let nameTok := if c2 = '-' then cs else c2 :: cs
            match nameTok with
            | [] => (st, s :: rest)
            | n0 :: _ =>
                if n0 = '-' ∨ n0 = '=' then (st, s :: rest)
                else
                  match cutCharList nameTok with
                  | some (namePre, value) =>
                      if isKnownFlag (String.mk namePre) then
                        goFlagParse rest (applyFlag st (String.mk namePre) (String.mk value))
                      else (st, rest)
                  | none =>
                      if isKnownFlag (String.mk nameTok) then
                        match rest with
                        | v :: rest2 => goFlagParse rest2 (applyFlag st (String.mk nameTok) v)
                        | [] => (st, [])
                      else (st, rest)
      | _ => (st, s :: rest)

/-- `DefaultStopTimeout` from config.go line 14 (seconds). -/
def DefaultStopTimeout : Nat := 10

/-- `DefaultTTYRetries` from config.go line 19. -/
def DefaultTTYRetries : Nat := 10

/-- `DefaultRetryDelay` from config.go line 24, in milliseconds. -/
def DefaultRetryDelayMs : Nat := 10

/-- `GitUserConfig` from config.go lines 42-45. -/
structure GitUserConfig where
  name : String
  email : String
deriving DecidableEq

/-- `Config` from config.go lines 27-40 (`RetryDelay` in milliseconds). -/
structure Config where
  imageName : String
  workingDir : String
  stopTimeout : Nat
  ttyRetries : Nat
  retryDelayMs : Nat
  gitUser : GitUserConfig
  args : List String
  env : List String
  volumes : List String
  dockerfilePath : String
  network : String
deriving DecidableEq

/-- The two default bind mounts of config.go lines 111-114. -/
def defaultVolumes : List String :=
  ["/var/run/docker.sock:/var/run/docker.sock",
   "/run/host-services/ssh-auth.sock:/run/host-services/ssh-auth.sock"]

/-- `ParseConfig` (config.go lines 62-133): parse the flags, build the
container environment (TERM with fallback `xterm-256color`, COLORTERM with
fallback `truecolor`, ANTHROPIC_API_KEY with the map's zero value, the fixed
SSH_AUTH_SOCK binding, then the `--env` values), prepend the default mounts to
the `--volume` values, and fill the fixed constants. -/
def ParseConfig (args : List String) (environment : List String) : Config :=
  let parsed := goFlagParse args initialFlagValues
  let st := parsed.1
  let programArgs := parsed.2
  let term := (lookupEnv environment "TERM").getD "xterm-256color"
  let colorterm := (lookupEnv environment "COLORTERM").getD "truecolor"
  let apiKey := (lookupEnv environment "ANTHROPIC_API_KEY").getD ""
  { imageName := "contagent:latest"
    workingDir := "/app"
    stopTimeout := DefaultStopTimeout
    ttyRetries := DefaultTTYRetries
    retryDelayMs := DefaultRetryDelayMs
    gitUser := ⟨"Contagent", "contagent@example.com"⟩
    args := programArgs
    env := ["TERM=" ++ term, "COLORTERM=" ++ colorterm,
            "ANTHROPIC_API_KEY=" ++ apiKey,
            "SSH_AUTH_SOCK=/run/host-services/ssh-auth.sock"] ++ st.envFlags
    volumes := defaultVolumes ++ st.volumeFlags
    dockerfilePath := st.dockerfilePath
    network := st.network }

/-- The model reproduces the `ParseConfig` unit test "with mixed --env and
--volume flags" (src/unnamed/part_001 lines 88-115), including the COLORTERM
and ANTHROPIC_API_KEY fallbacks. -/
theorem parseConfig_mixed_flags_check :
    ParseConfig
        ["--env", "VAR1=value1", "--volume", "/host/path:/container/path",
         "--env", "VAR2=value2", "some-program", "--arg"]
        ["TERM=some-term"]
      = { imageName := "contagent:latest", workingDir := "/app", stopTimeout := 10,
          ttyRetries := 10, retryDelayMs := 10,
          gitUser := ⟨"Contagent", "contagent@example.com"⟩,
          args := ["some-program", "--arg"],
          env := ["TERM=some-term", "COLORTERM=truecolor", "ANTHROPIC_API_KEY=",
                  "SSH_AUTH_SOCK=/run/host-services/ssh-auth.sock",
                  "VAR1=value1", "VAR2=value2"],
          volumes := ["/var/run/docker.sock:/var/run/docker.sock",
                      "/run/host-services/ssh-auth.sock:/run/host-services/ssh-auth.sock",
                      "/host/path:/container/path"],
          dockerfilePath := "", network := "default" } := by
  decide

/-- The model reproduces the `ParseConfig` unit test "when given a program"
(src/unnamed/part_001 lines 13-31): host TERM, COLORTERM and
ANTHROPIC_API_KEY are forwarded and the network defaults to `default`. -/
theorem parseConfig_plain_program_check :
    (ParseConfig ["some-command", "--some-option"]
        ["TERM=some-term", "COLORTERM=some-color-term",
         "ANTHROPIC_API_KEY=some-api-key", "OTHER_KEY=other-value"]).env
      = ["TERM=some-term", "COLORTERM=some-color-term",
         "ANTHROPIC_API_KEY=some-api-key",
         "SSH_AUTH_SOCK=/run/host-services/ssh-auth.sock"] ∧
    (ParseConfig ["some-command", "--some-option"] ["TERM=some-term"]).args
      = ["some-command", "--some-option"] ∧
    (ParseConfig ["--network", "some-network", "some-program"] ["TERM=some-term"]).network
      = "some-network" := by
  refine ⟨by decide, by decide, by decide⟩

/-- C10: the `Config` returned by `ParseConfig` carries fixed constants no
input can influence: image name `contagent:latest`, working directory `/app`,
stop timeout 10, TTY resize retries 10 with base delay 10ms, and committer
identity `Contagent` / `contagent@example.com`. -/
theorem parseConfig_fixed_constants (args environment : List String) :
    (ParseConfig args environment).imageName = "contagent:latest" ∧
    (ParseConfig args environment).workingDir = "/app" ∧
    (ParseConfig args environment).stopTimeout = 10 ∧
    (ParseConfig args environment).ttyRetries = 10 ∧
    (ParseConfig args environment).retryDelayMs = 10 ∧
    (ParseConfig args environment).gitUser = ⟨"Contagent", "contagent@example.com"⟩ := by
  exact ⟨rfl, rfl, rfl, rfl, rfl, rfl⟩

/-- Spec-side definition, following the claim's words: the container
environment is TERM from the host or `xterm-256color` if absent, then
COLORTERM from the host or `truecolor` if absent, then ANTHROPIC_API_KEY,
then the fixed binding `SSH_AUTH_SOCK=/run/host-services/ssh-auth.sock`,
followed by the `--env` values in order. -/
def specContainerEnv (environment : List String) (envFlagValues : List String) : List String :=
  ["TERM=" ++ ((lookupEnv environment "TERM").getD "xterm-256color"),
   "COLORTERM=" ++ ((lookupEnv environment "COLORTERM").getD "truecolor"),
   "ANTHROPIC_API_KEY=" ++ ((lookupEnv environment "ANTHROPIC_API_KEY").getD ""),
   "SSH_AUTH_SOCK=/run/host-services/ssh-auth.sock"] ++ envFlagValues

/-- Spec-side definition, following the claim's words: the mount list is the
two default mounts (Docker socket, SSH-agent socket) followed by the
`--volume` values in order. -/
def specContainerMounts (volumeFlagValues : List String) : List String :=
  ["/var/run/docker.sock:/var/run/docker.sock",
   "/run/host-services/ssh-auth.sock:/run/host-services/ssh-auth.sock"]
    ++ volumeFlagValues

/-- C8: for every argument vector and host environment, `ParseConfig` builds
the container environment as the four default-carrying bindings followed by
the `--env` values in order, the mount list as the two default mounts followed
by the `--volume` values in order, and the command vector as exactly the
positional arguments left after flag parsing. -/
theorem parseConfig_env_mounts_command (args environment : List String) :
    (ParseConfig args environment).env
        = specContainerEnv environment (goFlagParse args initialFlagValues).1.envFlags ∧
    (ParseConfig args environment).volumes
        = specContainerMounts (goFlagParse args initialFlagValues).1.volumeFlags ∧
    (ParseConfig args environment).args = (goFlagParse args initialFlagValues).2 := by
  exact ⟨rfl, rfl, rfl⟩

/-! ## Container creation and the orchestrator's call (src/unnamed/part_002
`Client.CreateContainer`, src/main.go `run`) -/

/-- `Image` from part_002 lines 17-19. -/
structure Image where
  name : String
deriving DecidableEq

/-- The container-create request `Client.CreateContainer` (part_002 lines
144-167) submits to the engine: TTY and attached stdin/stdout/stderr, the
gateway extra host, the supplied binds, and `NetworkMode` taken from the
`network` parameter. -/
structure ContainerCreateRequest where
  image : String
  cmd : List String
  tty : Bool
  openStdin : Bool
  env : List String
  workingDir : String
  extraHosts : List String
  binds : List String
  networkMode : String
  containerName : String
deriving DecidableEq

/-- `Client.CreateContainer` (part_002 lines 144-180): builds the create
request and returns the handle carrying the stop timeout and resize-retry
settings. -/
def Client.CreateContainer (sessionID : String) (image : Image)
    (args env volumes : List String) (workingDir network : String)
    (stopTimeout ttyRetries retryDelayMs : Nat) (engineID : String) :
    ContainerCreateRequest × Container :=
  ({ image := image.name
     cmd := args
     tty := true
     openStdin := true
     env := env
     workingDir := workingDir
     extraHosts := ["host.docker.internal:host-gateway"]
     binds := volumes
     networkMode := network
     containerName := sessionID },
   { id := engineID, name := sessionID, stopTimeout := stopTimeout,
     ttyRetries := ttyRetries, retryDelayMs := retryDelayMs })

/-- One positional argument value at a Go call site, tagged by its kind. -/
inductive RunArg where
  | str (s : String)
  | strList (l : List String)
  | nat (n : Nat)
deriving DecidableEq

/-- The value arguments `run` (src/main.go lines 76-87) supplies to
`client.CreateContainer` after the context, in source order: session id,
image, `config.Args`, `config.Env`, `config.Volumes`, `config.WorkingDir`,
`config.StopTimeout`, `config.TTYRetries`, `config.RetryDelay`.  The call
supplies no network argument. -/
def runCreateContainerArgs (sessionID : String) (image : Image) (config : Config) :
    List RunArg :=
  [.str sessionID, .str image.name, .strList config.args, .strList config.env,
   .strList config.volumes, .str config.workingDir, .nat config.stopTimeout,
   .nat config.ttyRetries, .nat config.retryDelayMs]

/-- The value parameters of `Client.CreateContainer`'s signature (part_002
line 144) after the context, in order. -/
def createContainerParams : List String :=
  ["sessionID", "image", "args", "env", "volumes", "workingDir", "network",
   "stopTimeout", "ttyRetries", "retryDelay"]

/-- C6, evaluated at the failing input: for the run configured with
`--network some-network`, the parsed network value appears in the `Config`
but among none of the arguments `run` passes to `CreateContainer`, and the
call site supplies one argument fewer than the driver's signature declares
(nine values for ten parameters) — the network never reaches container
creation. -/
theorem run_createContainer_omits_network :
    (ParseConfig ["--network", "some-network", "cmd"] []).network = "some-network" ∧
    RunArg.str "some-network"
      ∉ runCreateContainerArgs "contagent-1234" ⟨"contagent:latest"⟩
          (ParseConfig ["--network", "some-network", "cmd"] []) ∧
    (runCreateContainerArgs "contagent-1234" ⟨"contagent:latest"⟩
          (ParseConfig ["--network", "some-network", "cmd"] [])).length + 1
      = createContainerParams.length := by
  refine ⟨by decide, by decide, by decide⟩

/-! ## Build-output processing (src/unnamed/part_002, `Client.BuildImage`) -/

/-- One decoded record of the engine's build output (part_002 lines 116-122):
a progress fragment `stream` and an `errorDetail` with code and message. -/
structure BuildRecord where
  stream : String
  errorCode : Int
  errorMessage : String
deriving DecidableEq

/-- The decode loop of `Client.BuildImage` (part_002 lines 108-137) over the
already-decoded records: a record with nonzero error code aborts with the
wrapped message before anything further is written; otherwise the record's
stream fragment is written to the sink and the loop continues; when the
records are exhausted the built image named by the request is returned.
The result pairs `BuildImage`'s return value with the fragments written to
the sink, in order. -/
def BuildImageOutput (imageName : String) : List BuildRecord → Except String Image × List String
  | [] => (.ok ⟨imageName⟩, [])
  | r :: rs =>
      if r.errorCode ≠ 0 then
        (.error ("docker build failed: " ++ r.errorMessage
           ++ "\nCheck your Dockerfile syntax and base image availability"), [])
      else
        let rest := BuildImageOutput imageName rs
        (rest.1, r.stream :: rest.2)

/-- Spec-side definition, following the claim's words: the first record
carrying a nonzero error code, together with the records before it (all of
which carry code zero); `none` when every record carries code zero. -/
def specFirstErrorRecord : List BuildRecord → Option (List BuildRecord × BuildRecord)
  | [] => none
  | r :: rs =>
      if r.errorCode ≠ 0 then some ([], r)
      else
        match specFirstErrorRecord rs with
        | some (pre, bad) => some (r :: pre, bad)
        | none => none

/-- C7: `BuildImage` writes the stream fragment of each record with error code
zero to the sink in order; at the first record with a nonzero error code it
stops, returns an error containing that record's message, and writes no later
record; if no record carries a nonzero code it returns an `Image` whose name
equals the requested image name. -/
theorem buildImage_output_spec (imageName : String) (records : List BuildRecord) :
    BuildImageOutput imageName records
      = match specFirstErrorRecord records with
        | none => (.ok ⟨imageName⟩, records.map (fun r => r.stream))
        | some (pre, bad) =>
            (.error ("docker build failed: " ++ bad.errorMessage
               ++ "\nCheck your Dockerfile syntax and base image availability"),
             pre.map (fun r => r.stream)) := by
  induction records with
  | nil => rfl
  | cons r rs ih =>
      by_cases h : r.errorCode ≠ 0
      · simp [BuildImageOutput, specFirstErrorRecord, h]
      · simp only [BuildImageOutput, specFirstErrorRecord, if_neg h, ih]
        cases hs : specFirstErrorRecord rs with
        | none => simp
        | some pb => cases pb with | mk pre bad => simp

/-! ## TTY resize retry (src/internal/docker/tty.go `TTY.Monitor`;
src/unnamed/part_001 `Container.Attach`) -/

/-- `TTY` from tty.go lines 15-22 (the Docker client, output stream and sink
are implicit in the outcomes; `retryDelay` in milliseconds). -/
structure TTY where
  id : String
  maxRetries : Nat
  retryDelayMs : Nat
deriving DecidableEq

/-- `NewTTY` (tty.go lines 27-36) as `Container.Attach` calls it at part_001
line 217: the handle's ID, retry count and base delay. -/
def NewTTY (c : Container) : TTY :=
  ⟨c.id, c.ttyRetries, c.retryDelayMs⟩

/-- What the retry goroutine of `TTY.Monitor` did: the delays it waited
(milliseconds, in order, one before each resize attempt) and the fatal
message it emitted through the sink, if any. -/
structure RetryOutcome where
  delays : List Nat
  fatal : Option String
deriving DecidableEq

/-- The retry loop of `TTY.Monitor` (tty.go lines 46-59): `retry` is Go's loop
variable, `fuel` the remaining iterations, `errPending` whether the local
`err` variable currently holds an error.  Each iteration waits
`(retry+1)·retryDelay`, then attempts a resize and returns on success; when
the loop exhausts its iterations with an error pending, the fatal message is
emitted.  `succ retry` abstracts whether the resize attempt of iteration
`retry` succeeds. -/
def retryLoopAux (succ : Nat → Bool) (base : Nat) :
    Nat → Nat → Bool → RetryOutcome
  | _, 0, errPending =>
      ⟨[], if errPending then some "failed to resize tty" else none⟩
  | retry, fuel + 1, _ =>
      if succ retry then ⟨[(retry + 1) * base], none⟩
      else
        let r := retryLoopAux succ base (retry + 1) fuel true
        ⟨(retry + 1) * base :: r.delays, r.fatal⟩

/-- The whole retry goroutine: the loop starts at `retry = 0`, runs
`maxRetries` iterations, and the `err` variable starts out nil
(tty.go lines 46-47). -/
def retryLoop (succ : Nat → Bool) (base maxRetries : Nat) : RetryOutcome :=
  retryLoopAux succ base 0 maxRetries false

/-- The observable outcome of `TTY.Monitor`: the value it returns and, when
its resize attempt failed, the behaviour of the spawned retry goroutine. -/
structure MonitorResult where
  monitorError : Option String
  retry : Option RetryOutcome

/-- `TTY.Monitor` (tty.go lines 42-78): attempts a resize, spawns the retry
goroutine only when that attempt fails, installs the SIGWINCH listener, and
returns nil. -/
def TTY.Monitor (t : TTY) (resizeOk : Bool) (succ : Nat → Bool) : MonitorResult :=
  { monitorError := none
    retry := if resizeOk then none
             else some (retryLoop succ t.retryDelayMs t.maxRetries) }

/-- The outcome of the resize portion of `Container.Attach` (part_001 lines
206-221): the error `Attach` returns from this portion, the warnings emitted,
and the `Monitor` outcome. -/
structure AttachSetup where
  aborted : Option String
  warnings : List String
  monitor : MonitorResult

/-- The resize portion of `Container.Attach` (part_001 lines 206-221): the
initial resize failure is only warned (lines 213-215), never returned, and
`Monitor` is then invoked with its own resize attempt. -/
def Container.AttachResizePhase (c : Container) (initialResizeErr : Option String)
    (monitorResizeOk : Bool) (succ : Nat → Bool) : AttachSetup :=
  { aborted := none
    warnings := match initialResizeErr with
      | some e => ["failed to resize tty: " ++ e]
      | none => []
    monitor := (NewTTY c).Monitor monitorResizeOk succ }

/-- Spec-side definition, following the claim's words: the first attempt index
(counting from `start`, within `fuel` attempts) at which the resize
succeeds. -/
def specFirstSuccessAux (succ : Nat → Bool) : Nat → Nat → Option Nat
  | _, 0 => none
  | start, fuel + 1 =>
      if succ start then some start else specFirstSuccessAux succ (start + 1) fuel

/-- Spec-side definition: the first of the `n` attempt indices `0..n-1` at
which the resize succeeds, if any. -/
def specFirstSuccess (succ : Nat → Bool) (n : Nat) : Option Nat :=
  specFirstSuccessAux succ 0 n

theorem specFirstSuccessAux_le (succ : Nat → Bool) (fuel : Nat) :
    ∀ start j, specFirstSuccessAux succ start fuel = some j → start ≤ j := by
  induction fuel with
  | zero => intro start j h; simp [specFirstSuccessAux] at h
  | succ fuel ih =>
      intro start j h
      simp only [specFirstSuccessAux] at h
      by_cases hs : succ start = true
      · rw [if_pos hs] at h
        exact le_of_eq (Option.some.inj h)
      · rw [if_neg hs] at h
        exact Nat.le_of_succ_le (ih (start + 1) j h)

theorem retryLoopAux_spec (succ : Nat → Bool) (base : Nat) (fuel : Nat) :
    ∀ (start : Nat) (errPending : Bool),
      retryLoopAux succ base start fuel errPending
        = match specFirstSuccessAux succ start fuel with
          | some j =>
              ⟨(List.range' start (j + 1 - start)).map (fun k => (k + 1) * base), none⟩
          | none =>
              ⟨(List.range' start fuel).map (fun k => (k + 1) * base),
               if fuel = 0 then
                 (if errPending then some "failed to resize tty" else none)
               else some "failed to resize tty"⟩ := by
  induction fuel with
  | zero =>
      intro start errPending
      simp [retryLoopAux, specFirstSuccessAux]
  | succ fuel ih =>
      intro start errPending
      by_cases hs : succ start = true
      · simp only [retryLoopAux, specFirstSuccessAux, if_pos hs]
        have h1 : start + 1 - start = 1 := by omega
        rw [h1, List.range'_succ]
        simp
      · simp only [retryLoopAux, specFirstSuccessAux, if_neg hs, ih (start + 1) true]
        cases hj : specFirstSuccessAux succ (start + 1) fuel with
        | some j =>
            have hle := specFirstSuccessAux_le succ fuel (start + 1) j hj
            have h1 : j + 1 - start = (j + 1 - (start + 1)) + 1 := by omega
            dsimp only
            rw [h1, List.range'_succ]
            simp
        | none =>
            dsimp only
            rw [List.range'_succ]
            cases fuel with
            | zero => simp
            | succ f => simp

theorem range'_map_succ_mul (base : Nat) (m : Nat) :
    ∀ s, (List.range' s m).map (fun k => (k + 1) * base)
          = (List.range' (s + 1) m).map (fun k => k * base) := by
  induction m with
  | zero => intro s; rfl
  | succ m ih =>
      intro s
      rw [List.range'_succ, List.range'_succ]
      simp only [List.map_cons, ih (s + 1)]

/-- C9: when the initial TTY resize fails, the session is not aborted for that
reason — `Attach` only warns and `Monitor` returns nil — and the bridge starts
a retry task that waits `k·base` before the k-th attempt for `k = 1..N`
(`N = TTYRetries`, `base = RetryDelay`): it stops after the first successful
attempt (having waited delays `1·base .. (j+1)·base` when attempt index `j` is
the first success), and it emits the fatal message through the sink only when
every one of the `N` attempts fails (and at least one attempt was
configured). -/
theorem tty_initial_resize_retry (c : Container) (e : String) (succ : Nat → Bool) :
    (c.AttachResizePhase (some e) false succ).aborted = none ∧
    (c.AttachResizePhase (some e) false succ).warnings = ["failed to resize tty: " ++ e] ∧
    (c.AttachResizePhase (some e) false succ).monitor.monitorError = none ∧
    (c.AttachResizePhase (some e) false succ).monitor.retry
        = some (retryLoop succ c.retryDelayMs c.ttyRetries) ∧
    retryLoop succ c.retryDelayMs c.ttyRetries
      = match specFirstSuccess succ c.ttyRetries with
        | some j =>
            ⟨(List.range' 1 (j + 1)).map (fun k => k * c.retryDelayMs), none⟩
        | none =>
            ⟨(List.range' 1 c.ttyRetries).map (fun k => k * c.retryDelayMs),
             if c.ttyRetries = 0 then none else some "failed to resize tty"⟩ := by
  refine ⟨rfl, rfl, rfl, rfl, ?_⟩
  rw [retryLoop, retryLoopAux_spec succ c.retryDelayMs c.ttyRetries 0 false]
  show (match specFirstSuccessAux succ 0 c.ttyRetries with
        | some j => _ | none => _) = _
  rw [show specFirstSuccessAux succ 0 c.ttyRetries = specFirstSuccess succ c.ttyRetries
        from rfl]
  cases hj : specFirstSuccess succ c.ttyRetries with
  | some j =>
      simp only [Nat.sub_zero]
      rw [range'_map_succ_mul c.retryDelayMs (j + 1) 0]
  | none =>
      rw [range'_map_succ_mul c.retryDelayMs c.ttyRetries 0]
      simp

/-! ## Snapshot archive (src/internal/git/archive.go)

Filesystem paths are modelled as their slash-separated component lists
(`filepath.ToSlash` and the `strings.ReplaceAll` of archive.go line 214 are
implicit in this representation).  A directory walk is modelled as the list
of nodes `filepath.Walk` visits, each carrying its `filepath.Rel` path from
the walk root and its `os.FileInfo` kind and mode. -/

/-- The kind of a filesystem node, as read off `os.FileInfo`. -/
inductive FileKind where
  | dir
  | file
  | symlink
deriving DecidableEq

/-- A node met by `filepath.Walk`: its path relative to the walk root as
returned by `filepath.Rel` (component list; `["."]` for the root itself), its
kind, and its mode bits. -/
structure WalkEntry where
  rel : List String
  kind : FileKind
  mode : Nat
deriving DecidableEq

/-- The `os.Lstat` result for one path listed by `git ls-files`. -/
structure PathInfo where
  kind : FileKind
  mode : Nat
deriving DecidableEq

/-- One tar header written to the archive: its `Name` as a component list
(directory headers additionally carry a trailing slash in Go, reflected here
in the type flag) and its type flag and mode. -/
structure TarEntry where
  path : List String
  typeflag : FileKind
  mode : Nat
deriving DecidableEq

/-- One step of the cleaning `filepath.Join` performs (Go's `path.Clean`) on
a relative path, processing components left to right with the output
accumulated in reverse: empty and `.` components are dropped, `..` pops the
previous component unless there is none or it is itself a kept `..`. -/
def cleanStep (acc : List String) (c : String) : List String :=
  if c = "" ∨ c = "." then acc
  else if c = ".." then
    match acc with
    | [] => [".."]
    | a :: rest => if a = ".." then c :: acc else rest
  else c :: acc

/-- Go's `path.Clean` on a relative path held as its component list. -/
def cleanComponents (cs : List String) : List String :=
  (cs.foldl cleanStep []).reverse

/-- `filepath.Join` on component lists: concatenate, then clean.  In
particular joining with `"."` (the walk root's `filepath.Rel` path) yields
the base unchanged, as in Go. -/
def goJoin (base rel : List String) : List String :=
  cleanComponents (base ++ rel)

/-- `addDirectoryToArchive` (archive.go lines 202-253): walks `srcDir`
skipping symbolic links (line 216-218) and emits for every directory a
header named `Join(tarPath, rel)` with a trailing slash (lines 220-227) and
for every regular file a header named `Join(tarPath, rel)` (lines 228-249),
each with the node's mode. -/
def addDirectoryToArchive (tarPath : List String) (walk : List WalkEntry) :
    List TarEntry :=
  walk.filterMap fun e =>
    match e.kind with
    | .symlink => none
    | .dir => some ⟨goJoin tarPath e.rel, .dir, e.mode⟩
    | .file => some ⟨goJoin tarPath e.rel, .file, e.mode⟩

/-- The `ls-files` loop of `CreateArchive` (archive.go lines 116-165): empty
lines are skipped, each listed path is `Lstat`-ed (failures skipped, line
124-127), symbolic links are skipped (lines 129-131), directories become
`Join("app", rel)` headers with a trailing slash, regular files become
`Join("app", rel)` headers with the file's mode. -/
def lsFilesEntries (stat : List String → Option PathInfo)
    (lsFiles : List (List String)) : List TarEntry :=
  lsFiles.filterMap fun rel =>
    if rel = [] then none
    else
      match stat rel with
      | none => none
      | some info =>
          match info.kind with
          | .symlink => none
          | .dir => some ⟨goJoin ["app"] rel, .dir, info.mode⟩
          | .file => some ⟨goJoin ["app"] rel, .file, info.mode⟩

/-- The tar headers `CreateArchive` (archive.go lines 96-172) writes, in
order: the `app/` directory header with mode 0755 (lines 96-103), the walk of
the copied control directory rooted at tar path `app/.git` (line 105), then
the tracked-file entries (lines 109-165). -/
def CreateArchiveEntries (gitWalk : List WalkEntry)
    (stat : List String → Option PathInfo) (lsFiles : List (List String)) :
    List TarEntry :=
  ⟨["app"], .dir, 0o755⟩ ::
    (addDirectoryToArchive ["app", ".git"] gitWalk ++ lsFilesEntries stat lsFiles)

/-- The components surviving cleaning when no `..` occurs: everything except
empty and `.` components. -/
def plainFilter (cs : List String) : List String :=
  cs.filter fun c => !(c == "" || c == ".")

theorem foldl_cleanStep_no_dotdot (cs : List String) :
    ∀ acc, ".." ∉ cs →
      cs.foldl cleanStep acc = (plainFilter cs).reverse ++ acc := by
  induction cs with
  | nil => intro acc _; rfl
  | cons c cs ih =>
      intro acc h
      have hc : c ≠ ".." := fun hce => h (hce ▸ List.mem_cons_self c cs)
      have hcs : ".." ∉ cs := fun hmem => h (List.mem_cons_of_mem c hmem)
      simp only [List.foldl_cons]
      by_cases hdrop : c = "" ∨ c = "."
      · rw [show cleanStep acc c = acc from by simp [cleanStep, hdrop]]
        rw [ih acc hcs]
        have : plainFilter (c :: cs) = plainFilter cs := by
          rcases hdrop with h1 | h1 <;> simp [plainFilter, h1]
        rw [this]
      · rw [show cleanStep acc c = c :: acc from by simp [cleanStep, hdrop, hc]]
        rw [ih (c :: acc) hcs]
        have : plainFilter (c :: cs) = c :: plainFilter cs := by
          push_neg at hdrop
          simp [plainFilter, hdrop.1, hdrop.2]
        rw [this]
        simp

theorem goJoin_app_git_under (rel : List String) (h : ".." ∉ rel) :
    goJoin ["app", ".git"] rel = "app" :: ".git" :: plainFilter rel := by
  unfold goJoin cleanComponents
  rw [List.foldl_append]
  rw [show List.foldl cleanStep [] ["app", ".git"] = [".git", "app"] from rfl]
  rw [foldl_cleanStep_no_dotdot rel [".git", "app"] h]
  simp

theorem goJoin_app_under (rel : List String) (h : ".." ∉ rel) :
    goJoin ["app"] rel = "app" :: plainFilter rel := by
  unfold goJoin cleanComponents
  rw [List.foldl_append]
  rw [show List.foldl cleanStep [] ["app"] = ["app"] from rfl]
  rw [foldl_cleanStep_no_dotdot rel ["app"] h]
  simp

theorem createArchive_entries_under_app (gitWalk : List WalkEntry)
    (stat : List String → Option PathInfo) (lsFiles : List (List String))
    (hwalk : ∀ e ∈ gitWalk, ".." ∉ e.rel)
    (hls : ∀ rel ∈ lsFiles, ".." ∉ rel) :
    ∀ entry ∈ CreateArchiveEntries gitWalk stat lsFiles,
      entry.path.head? = some "app" ∧ entry.typeflag ≠ .symlink := by
  intro entry hmem
  simp only [CreateArchiveEntries, List.mem_cons, List.mem_append] at hmem
  rcases hmem with h0 | hgit | htracked
  · subst h0
    exact ⟨rfl, by simp⟩
  · simp only [addDirectoryToArchive, List.mem_filterMap] at hgit
    obtain ⟨e, he, hmap⟩ := hgit
    have hnd := hwalk e he
    cases hk : e.kind with
    | symlink =>
        rw [hk] at hmap
        exact absurd hmap (by simp)
    | dir =>
        rw [hk] at hmap
        obtain rfl := Option.some.inj hmap
        refine ⟨?_, by simp⟩
        show (goJoin ["app", ".git"] e.rel).head? = some "app"
        rw [goJoin_app_git_under e.rel hnd]
        rfl
    | file =>
        rw [hk] at hmap
        obtain rfl := Option.some.inj hmap
        refine ⟨?_, by simp⟩
        show (goJoin ["app", ".git"] e.rel).head? = some "app"
        rw [goJoin_app_git_under e.rel hnd]
        rfl
  · simp only [lsFilesEntries, List.mem_filterMap] at htracked
    obtain ⟨rel, hrel, hmap⟩ := htracked
    have hnd := hls rel hrel
    by_cases hempty : rel = []
    · rw [if_pos hempty] at hmap
      exact absurd hmap (by simp)
    · rw [if_neg hempty] at hmap
      cases hstat : stat rel with
      | none => rw [hstat] at hmap; exact absurd hmap (by simp)
      | some info =>
          simp only [hstat] at hmap
          cases hk : info.kind with
          | symlink =>
              simp only [hk] at hmap
              exact absurd hmap (by simp)
          | dir =>
              simp only [hk] at hmap
              obtain rfl := Option.some.inj hmap
              refine ⟨?_, by simp⟩
              show (goJoin ["app"] rel).head? = some "app"
              rw [goJoin_app_under rel hnd]
              rfl
          | file =>
              simp only [hk] at hmap
              obtain rfl := Option.some.inj hmap
              refine ⟨?_, by simp⟩
              show (goJoin ["app"] rel).head? = some "app"
              rw [goJoin_app_under rel hnd]
              rfl

/-- Decidable form of the archive invariant over a list of tar entries:
every entry path has first component `app` and no entry is a symbolic
link. -/
def archiveEntriesUnderApp (entries : List TarEntry) : Bool :=
  entries.all fun en => en.path.head? == some "app" && !(en.typeflag == .symlink)

/-- C3: every tar header produced by `CreateArchive` has a path whose first
component is `app` — so every entry path starts with the prefix `app/` and
none begins with `/` — and no entry is a symbolic link: symlinks met while
walking the copied control directory or iterating the tracked-file list are
skipped rather than emitted.  The hypotheses record that the walk's
`filepath.Rel` outputs and the `ls-files` outputs contain no `..` component,
which `filepath.Rel` on nodes inside the walk root and `git ls-files`
guarantee. -/
theorem createArchive_all_entries_under_app (gitWalk : List WalkEntry)
    (stat : List String → Option PathInfo) (lsFiles : List (List String))
    (hwalk : ∀ e ∈ gitWalk, ".." ∉ e.rel)
    (hls : ∀ rel ∈ lsFiles, ".." ∉ rel) :
    archiveEntriesUnderApp (CreateArchiveEntries gitWalk stat lsFiles) = true := by
  rw [archiveEntriesUnderApp, List.all_eq_true]
  intro en hmem
  obtain ⟨h1, h2⟩ :=
    createArchive_entries_under_app gitWalk stat lsFiles hwalk hls en hmem
  rw [h1]
  simp [h2]

/-- A concrete control-directory walk for the C3 witness, containing the walk
root, a file, a subdirectory and a symbolic link. -/
def witnessGitWalk : List WalkEntry :=
  [⟨["."], .dir, 0o755⟩, ⟨["HEAD"], .file, 0o644⟩, ⟨["hooks"], .dir, 0o755⟩,
   ⟨["hooks", "update"], .symlink, 0o777⟩]

/-- A concrete `Lstat` environment for the C3 witness: two tracked regular
files and one tracked path that is a symbolic link on disk. -/
def witnessStat : List String → Option PathInfo := fun rel =>
  if rel = ["main.go"] then some ⟨.file, 0o644⟩
  else if rel = ["docs", "guide.md"] then some ⟨.file, 0o644⟩
  else if rel = ["badlink"] then some ⟨.symlink, 0o777⟩
  else none

/-- A concrete `ls-files` listing for the C3 witness, including an empty
line. -/
def witnessLsFiles : List (List String) :=
  [["main.go"], ["docs", "guide.md"], ["badlink"], []]

/-- C3 witness: the invariant evaluated on the concrete archive above. -/
theorem createArchive_all_entries_under_app_witness :
    archiveEntriesUnderApp
        (CreateArchiveEntries witnessGitWalk witnessStat witnessLsFiles) = true :=
  createArchive_all_entries_under_app witnessGitWalk witnessStat witnessLsFiles
    (by decide) (by decide)

end Contagent
